import Mathlib

/-!
Verification of the quiz-generation core of this repository.

The development shallowly embeds the two source files:

* `src/QGtestrun3.py` — regex-based whole-match parsing (`parse_quiz_output`),
  content lookup with an empty-content short circuit (`generate_quiz`), and a
  persistence loop that stores each parsed question under its own
  `Q<digits>` number (`main`).
* `src/QGtestrun4.py` — block-split parsing (`_parse_questions`), the
  per-examinee uniqueness filter (`generate_unique_questions`), and the
  interactive scoring session (`main`).

Python strings are modelled as `String` (manipulated through `List Char`),
Python `int` as `Int` for ids and `Nat` for counts, the MySQL tables as
lists of rows inside an explicit `DB` record that is threaded through the
functions, the Gemini call as an oracle `gen : String → String` together
with an explicit log of the prompts passed to it, and Python exceptions
(`IndexError` from unguarded indexing) as `Option`/dedicated failure
constructors.  The regex `re.findall` on the fixed pattern of
`parse_quiz_output` is realised by a scanner that implements the lazy
groups of that pattern as first-occurrence scans, which coincides with the
real engine on all inputs considered here (each structural marker occurs
at most once per block).
-/

/-- Python whitespace for `str.strip` and the regex class `\s`
(space, tab, newline, carriage return, vertical tab, form feed). -/
def isPySpace (c : Char) : Bool :=
  c == ' ' || c == '\t' || c == '\n' || c == '\r' || c == '\x0b' || c == '\x0c'

/-- Python `str.strip()` on a character list. -/
def trimChars (cs : List Char) : List Char :=
  ((cs.dropWhile isPySpace).reverse.dropWhile isPySpace).reverse

/-- Python `str.strip()` on a string. -/
def pyStrip (s : String) : String := String.mk (trimChars s.data)

/-- Python `str.upper()` (ASCII, as produced by the CLI input here). -/
def pyUpper (s : String) : String := String.mk (s.data.map Char.toUpper)

/-- Python `str.split("\n")`: split at every newline, keeping empty pieces. -/
def splitNl : List Char → List (List Char)
  | [] => [[]]
  | c :: rest =>
    if c = '\n' then [] :: splitNl rest
    else
      match splitNl rest with
      | l :: ls => (c :: l) :: ls
      | [] => [[c]]

/-- Python `s.split(sep, 1)[1]`: the text after the first occurrence of a
character, `none` when the character is absent (Python raises `IndexError`). -/
def afterFirst (c : Char) : List Char → Option (List Char)
  | [] => none
  | x :: xs => if x = c then some xs else afterFirst c xs

/-- Python `s.split(sep)[1]`: the text strictly between the first occurrence
of a character and the following occurrence (or the end), `none` when the
character is absent (Python raises `IndexError`). -/
def betweenFirst (c : Char) (l : List Char) : Option (List Char) :=
  (afterFirst c l).map (fun r => r.takeWhile (fun x => x ≠ c))

/-- Value of a digit run, as Python `int` of a decimal digit string. -/
def natOfDigits (ds : List Char) : Nat :=
  ds.foldl (fun n c => 10 * n + (c.toNat - 48)) 0

/-- First match of the regex `Q\d+\.` in the text: the characters before the
marker, the number captured by `\d+`, and the characters after the dot.
`none` when no such marker occurs. -/
def findQ : List Char → Option (List Char × Nat × List Char)
  | [] => none
  | c :: rest =>
    let skip : Option (List Char × Nat × List Char) :=
      match findQ rest with
      | some (pre, n, suf) => some (c :: pre, n, suf)
      | none => none
    if c = 'Q' then
      let ds := rest.takeWhile Char.isDigit
      match ds, rest.drop ds.length with
      | [], _ => skip
      | _ :: _, '.' :: suf => some ([], natOfDigits ds, suf)
      | _ :: _, _ => skip
    else skip

/-- Fuel-driven worker for `qSplit`; the fuel only serves to make the
recursion structural and is always supplied amply by `qSplit`. -/
def qSplitF : Nat → List Char → List (Nat × List Char)
  | 0, _ => []
  | fuel + 1, cs =>
    match findQ cs with
    | none => []
    | some (_, n, suf) =>
      let seg :=
        match findQ suf with
        | none => suf
        | some (pre, _, _) => pre
      (n, seg) :: qSplitF fuel suf

/-- Python `re.split(r"Q\d+\.", text)[1:]`, paired with the number of each
marker: the text segments strictly between consecutive markers. -/
def qSplit (cs : List Char) : List (Nat × List Char) :=
  qSplitF (cs.length + 1) cs

/-- Question dictionary built by `QuizGenerator._parse_questions` in
`src/QGtestrun4.py` (no question number: `re.split` drops the marker). -/
structure ParsedQ where
  question : String
  A : String
  B : String
  C : String
  D : String
  correct : String
deriving Repr, DecidableEq

/-- One block of `QuizGenerator._parse_questions` (`src/QGtestrun4.py`,
body of the `for block in blocks[1:]` loop): strip the block, split it into
lines, then read `lines[0]` to `lines[5]` with unguarded indexing and
unguarded `split(")", 1)[1]` / `split(":")[1]`; `none` models the
`IndexError` that the Python code raises when a piece is missing. -/
def parseBlock (seg : List Char) : Option ParsedQ := do
  let lines := splitNl (trimChars seg)
  match lines with
  | l0 :: l1 :: l2 :: l3 :: l4 :: l5 :: _ => do
    let a ← afterFirst ')' l1
    let b ← afterFirst ')' l2
    let c ← afterFirst ')' l3
    let d ← afterFirst ')' l4
    let ans ← betweenFirst ':' l5
    some { question := String.mk (trimChars l0)
           A := String.mk (trimChars a)
           B := String.mk (trimChars b)
           C := String.mk (trimChars c)
           D := String.mk (trimChars d)
           correct := String.mk (trimChars ans) }
  | _ => none

/-- `QuizGenerator._parse_questions` of `src/QGtestrun4.py`: split the text
on `Q\d+\.` markers and parse every following block; `none` models the
uncaught `IndexError` escaping the whole call when any block is malformed. -/
def parse_questions (text : String) : Option (List ParsedQ) :=
  (qSplit text.data).mapM (fun p => parseBlock p.2)

/-- Question dictionary built by `parse_quiz_output` in `src/QGtestrun3.py`
(the captured `Q<digits>` number converted by `int`, plus the seven
stripped capture groups). -/
structure Q3 where
  question_no : Nat
  question : String
  A : String
  B : String
  C : String
  D : String
  answer : String
deriving Repr, DecidableEq

/-- First occurrence of a literal pattern: the characters before it and the
characters after it, `none` when the pattern does not occur. -/
def upTo (pat : List Char) : List Char → Option (List Char × List Char)
  | [] => if pat.isEmpty then some ([], []) else none
  | c :: rest =>
    if pat.isPrefixOf (c :: rest) then some ([], (c :: rest).drop pat.length)
    else
      match upTo pat rest with
      | some (pre, suf) => some (c :: pre, suf)
      | none => none

/-- Fields of one match of the regex of `parse_quiz_output` after the
`Q(\d+)\.` marker: the lazy groups `(.*?)` delimited by `A)`, `B)`, `C)`,
`D)` and `Answer:` are realised as first-occurrence scans, the final
`\s*([A-D])` as whitespace skipping plus a single-letter check, and the
boundary `\s*` of every group together with the `.strip()` calls of the
Python loop as `trimChars`.  Returns the record fields and the remaining
text after the answer letter (where `re.findall` resumes). -/
def matchBlock (cs : List Char) :
    Option ((String × String × String × String × String × String) × List Char) := do
  let (stem, r1) ← upTo ['A', ')'] cs
  let (oa, r2) ← upTo ['B', ')'] r1
  let (ob, r3) ← upTo ['C', ')'] r2
  let (oc, r4) ← upTo ['D', ')'] r3
  let (od, r5) ← upTo "Answer:".data r4
  match r5.dropWhile isPySpace with
  | a :: rest =>
    if a = 'A' || a = 'B' || a = 'C' || a = 'D' then
      some ((String.mk (trimChars stem), String.mk (trimChars oa),
             String.mk (trimChars ob), String.mk (trimChars oc),
             String.mk (trimChars od), String.mk [a]), rest)
    else none
  | [] => none

/-- Fuel-driven worker for `parse_quiz_output`; the fuel only serves to make
the recursion structural and is always supplied amply. -/
def regexScanF : Nat → List Char → List Q3
  | 0, _ => []
  | fuel + 1, cs =>
    match findQ cs with
    | none => []
    | some (_, n, suf) =>
      match matchBlock suf with
      | some ((stem, oa, ob, oc, od, ans), rest) =>
        { question_no := n, question := stem, A := oa, B := ob, C := oc,
          D := od, answer := ans } :: regexScanF fuel rest
      | none => regexScanF fuel suf

/-- `parse_quiz_output` of `src/QGtestrun3.py`: `re.findall` of the fixed
question pattern with `re.S`, scanning matches left to right and resuming
after each match; a marker whose block does not complete the pattern yields
nothing and scanning moves to the next marker.  Total: the Python function
never raises. -/
def parse_quiz_output (quiz_text : String) : List Q3 :=
  regexScanF (quiz_text.data.length + 1) quiz_text.data

/-- Row of the `quiz_questions` table (columns `question_no, skill, mode,
question, option_a..option_d, correct_answer`). -/
structure QuestionRow where
  question_no : Nat
  skill : String
  mode : String
  question : String
  option_a : String
  option_b : String
  option_c : String
  option_d : String
  correct_answer : String
deriving Repr, DecidableEq

/-- Row of the `quiz_attempts` table. -/
structure AttemptRow where
  resume_id : Int
  skill : String
  mode : String
  total_questions : Nat
  correct_answers : Nat
deriving Repr, DecidableEq

/-- State of the MySQL database: the `skill_set` table as
(skills, Content) rows, the `resume_history` table as
(resume_id, question) rows, and the question and attempt tables.
Inserts append rows; nothing is ever updated or deleted. -/
structure DB where
  skill_set : List (String × String)
  resume_history : List (Int × String)
  quiz_questions : List QuestionRow
  quiz_attempts : List AttemptRow
deriving Repr, DecidableEq

/-- `Database.get_content_for_skill`: join the `Content` column of every
`skill_set` row for the skill with single spaces (`" ".join`, which is also
the empty string when no row matches, as in both source variants). -/
def get_content_for_skill (db : DB) (skill : String) : String :=
  String.intercalate " " ((db.skill_set.filter (fun r => r.1 == skill)).map (fun r => r.2))

/-- `Database.question_used_before` of `src/QGtestrun4.py`: the SELECT on
`resume_history` with `WHERE resume_id=%s AND question=%s` finds a row. -/
def question_used_before (db : DB) (resume_id : Int) (question : String) : Bool :=
  db.resume_history.any (fun r => r.1 == resume_id && r.2 == question)

/-- `Database.store_used_question` of `src/QGtestrun4.py`: INSERT into
`resume_history`. -/
def store_used_question (db : DB) (resume_id : Int) (question : String) : DB :=
  { db with resume_history := db.resume_history ++ [(resume_id, question)] }

/-- Question dictionary of `src/QGtestrun4.py` after the acceptance
mutations `q["question_no"] = q_no`, `q["skill"] = skill`,
`q["mode"] = level`. -/
structure AcceptedQ where
  question_no : Nat
  skill : String
  mode : String
  question : String
  A : String
  B : String
  C : String
  D : String
  correct : String
deriving Repr, DecidableEq

/-- The `quiz_questions` row written for an accepted question
(`Database.store_question` of `src/QGtestrun4.py`). -/
def acceptedRow (q : AcceptedQ) : QuestionRow :=
  { question_no := q.question_no, skill := q.skill, mode := q.mode,
    question := q.question, option_a := q.A, option_b := q.B,
    option_c := q.C, option_d := q.D, correct_answer := q.correct }

/-- `Database.store_question` of `src/QGtestrun4.py`: INSERT into
`quiz_questions`. -/
def store_question (db : DB) (q : AcceptedQ) : DB :=
  { db with quiz_questions := db.quiz_questions ++ [acceptedRow q] }

/-- `Database.store_score` of `src/QGtestrun4.py`: INSERT into
`quiz_attempts`. -/
def store_score (db : DB) (resume_id : Int) (skill mode : String)
    (total correct : Nat) : DB :=
  { db with quiz_attempts :=
      db.quiz_attempts ++ [⟨resume_id, skill, mode, total, correct⟩] }

/-- The accepted question built from a candidate at display number `q_no`. -/
def accept (skill level : String) (q_no : Nat) (q : ParsedQ) : AcceptedQ :=
  { question_no := q_no, skill := skill, mode := level,
    question := q.question, A := q.A, B := q.B, C := q.C, D := q.D,
    correct := q.correct }

/-- The candidate loop of `QuizGenerator.generate_unique_questions`
(`src/QGtestrun4.py`): scan candidates in order; at each step first break
when `num_questions` acceptances were reached; otherwise accept the
candidate exactly when `question_used_before` is false, in which case the
mutated dictionary is appended to `final_qs`, the (resume, question) pair
is written to `resume_history`, the question row is written to
`quiz_questions`, and the display counter `q_no` advances. -/
def uniqLoop (resume_id : Int) (skill level : String) (num_questions : Nat) :
    List ParsedQ → List AcceptedQ → Nat → DB → List AcceptedQ × DB
  | [], final_qs, _, db => (final_qs, db)
  | q :: rest, final_qs, q_no, db =>
    if final_qs.length = num_questions then (final_qs, db)
    else if question_used_before db resume_id q.question then
      uniqLoop resume_id skill level num_questions rest final_qs q_no db
    else
      let aq := accept skill level q_no q
      uniqLoop resume_id skill level num_questions rest (final_qs ++ [aq])
        (q_no + 1) (store_question (store_used_question db resume_id q.question) aq)

/-- `QuizGenerator._build_prompt` of `src/QGtestrun4.py` (the f-string,
verbatim). -/
def build_prompt (skill level : String) (num_questions : Nat) (content : String) : String :=
  "\nGenerate " ++ toString num_questions ++ " " ++ level ++
  "-level MCQs for skill " ++ skill ++ ".\nUse this context: " ++ content ++
  "\n\nFormat:\nQ1. <question>\nA) <option>\nB) <option>\nC) <option>\nD) <option>\nAnswer: <letter>\n"

/-- Value returned by `QuizGenerator.generate_unique_questions`: the list of
accepted questions, the sentinel string returned when fewer than
`num_questions` were accepted, or the uncaught parser exception. -/
inductive GenResult where
  | parseCrash
  | insufficient (msg : String)
  | ok (qs : List AcceptedQ)
deriving Repr, DecidableEq

/-- `QuizGenerator.generate_unique_questions` of `src/QGtestrun4.py`: fetch
the content (with no emptiness check), build the prompt for
`num_questions * 2` questions, call the generator with it, parse, run the
uniqueness loop from an empty list with display counter 1, and return the
sentinel string when fewer than `num_questions` were accepted.  The third
component logs the prompts passed to the generator oracle `gen`. -/
def generate_unique_questions (gen : String → String) (db : DB) (resume_id : Int)
    (skill level : String) (num_questions : Nat) : GenResult × DB × List String :=
  let content := get_content_for_skill db skill
  let prompt := build_prompt skill level (num_questions * 2) content
  let raw := gen prompt
  match parse_questions raw with
  | none => (GenResult.parseCrash, db, [prompt])
  | some parsed =>
    let r := uniqLoop resume_id skill level num_questions parsed [] 1 db
    if r.1.length < num_questions then
      (GenResult.insufficient "Not enough unique questions found. Try again.", r.2, [prompt])
    else
      (GenResult.ok r.1, r.2, [prompt])

/-- The answer-collection loop of `main` in `src/QGtestrun4.py`: for each
question read one reply, strip and uppercase it, and count it correct
exactly when it equals the stored `correct` letter. -/
def scoring_loop : List AcceptedQ → List String → Nat → Nat
  | q :: rest, ans :: more, correct_count =>
    scoring_loop rest more
      (if pyUpper (pyStrip ans) = q.correct then correct_count + 1 else correct_count)
  | _, _, correct_count => correct_count

/-- How a run of `main` in `src/QGtestrun4.py` ends after the generation
step. -/
inductive RunOutcome where
  | finished (score : Nat)
  | typeError
  | crash
deriving Repr, DecidableEq

/-- The part of `main` in `src/QGtestrun4.py` after the CLI prompts: call
`generate_unique_questions`, iterate over its result collecting answers,
and store the attempt score.  When the result is the sentinel string the
`for q in qs` loop iterates over its characters and the first subscript
`q["question_no"]` raises `TypeError`, so `store_score` is never reached
(the sentinel is non-empty; an empty string would skip the loop and store
a zero score, which the branch keeps faithful). -/
def main4 (gen : String → String) (answers : List String) (db : DB)
    (resume_id : Int) (skill level : String) (num_q : Nat) : RunOutcome × DB :=
  match generate_unique_questions gen db resume_id skill level num_q with
  | (GenResult.parseCrash, db1, _) => (RunOutcome.crash, db1)
  | (GenResult.insufficient msg, db1, _) =>
    if msg = "" then
      (RunOutcome.finished 0, store_score db1 resume_id skill level num_q 0)
    else (RunOutcome.typeError, db1)
  | (GenResult.ok qs, db1, _) =>
    let correct := scoring_loop qs answers 0
    (RunOutcome.finished correct,
     store_score db1 resume_id skill level num_q correct)

/-- `QuizGenerator._build_prompt` of `src/QGtestrun3.py` (the f-string,
verbatim, including the trailing space after `questions`). -/
def build_prompt3 (skill level : String) (num_questions : Nat) (content : String) : String :=
  "\nGenerate " ++ toString num_questions ++ " " ++ level ++
  "-level multiple choice questions \nbased on the skill: " ++ skill ++
  ".\n\nUse this context:\n" ++ content ++
  "\n\nFormat Strictly:\nQ1. <question>\nA) <option>\nB) <option>\nC) <option>\nD) <option>\nAnswer: <A/B/C/D>\n"

/-- `QuizGenerator.generate_quiz` of `src/QGtestrun3.py`: fetch the content
and short-circuit with the no-content message when it is empty (`if not
content`), otherwise build the prompt, call the generator and strip its
reply.  The second component logs the prompts passed to the oracle `gen`:
it stays empty on the short circuit. -/
def generate_quiz (gen : String → String) (db : DB) (skill level : String)
    (num_questions : Nat) : String × List String :=
  let content := get_content_for_skill db skill
  if content = "" then ("No content found for skill: " ++ skill, [])
  else
    let prompt := build_prompt3 skill level num_questions content
    (pyStrip (gen prompt), [prompt])

/-- `Database.save_question` of `src/QGtestrun3.py`: INSERT the parsed
question into `quiz_questions` under the given number. -/
def save_question (db : DB) (question_no : Nat) (skill mode : String) (q : Q3) : DB :=
  { db with quiz_questions := db.quiz_questions ++
      [⟨question_no, skill, mode, q.question, q.A, q.B, q.C, q.D, q.answer⟩] }

/-- The persistence loop of `main` in `src/QGtestrun3.py`: save every parsed
question under `q["question_no"]`, the number taken from its own
`Q<digits>` marker. -/
def save_loop (skill level : String) : List Q3 → DB → DB
  | [], db => db
  | q :: rest, db => save_loop skill level rest (save_question db q.question_no skill level q)

/-- The part of `main` in `src/QGtestrun3.py` after the CLI prompts:
generate, parse, return unchanged when nothing parsed (`if not
parsed_questions`), otherwise save every parsed question. -/
def main3 (gen : String → String) (db : DB) (skill level : String)
    (num_q : Nat) : DB :=
  let out := generate_quiz gen db skill level num_q
  let parsed := parse_quiz_output out.1
  if parsed = [] then db else save_loop skill level parsed db

/-- Small database with no rows, used by the concrete instantiations. -/
def db0 : DB := ⟨[], [], [], []⟩

/-- Generator oracle replying with an empty text. -/
def genStub : String → String := fun _ => ""

/-- Generator oracle replying with a single well-formed question block. -/
def gen0 : String → String :=
  fun _ => "Q1. S1\nA) a\nB) b\nC) c\nD) d\nAnswer: A"

/-- A candidate with the given stem and fixed options, used by the
concrete instantiations. -/
def pq (s : String) : ParsedQ := ⟨s, "a", "b", "c", "d", "A"⟩

theorem used_iff (db : DB) (resume_id : Int) (question : String) :
    question_used_before db resume_id question = true ↔
      (resume_id, question) ∈ db.resume_history := by
  simp only [question_used_before, List.any_eq_true, Bool.and_eq_true, beq_iff_eq]
  constructor
  · rintro ⟨⟨a, b⟩, hmem, h1, h2⟩
    subst h1; subst h2; exact hmem
  · intro h
    exact ⟨(resume_id, question), h, rfl, rfl⟩

/-- Central description of one run of the candidate loop: the accepted list
extends the accumulator by a block `new` of newly accepted questions; the
database gains exactly the history pairs and question rows of `new` in
acceptance order and nothing else; every newly accepted stem was absent
from the incoming history; the new stems are pairwise distinct; and the new
display numbers count up from the incoming counter. -/
theorem uniqLoop_run (resume_id : Int) (skill level : String) (N : Nat)
    (parsed : List ParsedQ) :
    ∀ (acc : List AcceptedQ) (q_no : Nat) (db : DB),
    ∃ new : List AcceptedQ,
      (uniqLoop resume_id skill level N parsed acc q_no db).1 = acc ++ new ∧
      (uniqLoop resume_id skill level N parsed acc q_no db).2.skill_set = db.skill_set ∧
      (uniqLoop resume_id skill level N parsed acc q_no db).2.resume_history
        = db.resume_history ++ new.map (fun a => (resume_id, a.question)) ∧
      (uniqLoop resume_id skill level N parsed acc q_no db).2.quiz_questions
        = db.quiz_questions ++ new.map acceptedRow ∧
      (uniqLoop resume_id skill level N parsed acc q_no db).2.quiz_attempts
        = db.quiz_attempts ∧
      (∀ a ∈ new, (resume_id, a.question) ∉ db.resume_history) ∧
      (new.map AcceptedQ.question).Nodup ∧
      new.map AcceptedQ.question_no = List.range' q_no new.length := by
  induction parsed with
  | nil =>
    intro acc q_no db
    exact ⟨[], by simp [uniqLoop]⟩
  | cons q rest ih =>
    intro acc q_no db
    by_cases hN : acc.length = N
    · exact ⟨[], by simp [uniqLoop, hN]⟩
    · by_cases hused : question_used_before db resume_id q.question = true
      · have hu : uniqLoop resume_id skill level N (q :: rest) acc q_no db
            = uniqLoop resume_id skill level N rest acc q_no db := by
          simp [uniqLoop, hN, hused]
        rw [hu]
        exact ih acc q_no db
      · have hu : uniqLoop resume_id skill level N (q :: rest) acc q_no db
            = uniqLoop resume_id skill level N rest
                (acc ++ [accept skill level q_no q]) (q_no + 1)
                (store_question (store_used_question db resume_id q.question)
                  (accept skill level q_no q)) := by
          simp [uniqLoop, hN, hused]
        rw [hu]
        obtain ⟨new, h1, h2, h3, h4, h5, h6, h7, h8⟩ :=
          ih (acc ++ [accept skill level q_no q]) (q_no + 1)
            (store_question (store_used_question db resume_id q.question)
              (accept skill level q_no q))
        refine ⟨accept skill level q_no q :: new, ?_, ?_, ?_, ?_, ?_, ?_, ?_, ?_⟩
        · simp [h1]
        · simpa [store_question, store_used_question] using h2
        · rw [h3]; simp [store_question, store_used_question, accept]
        · rw [h4]; simp [store_question, store_used_question, acceptedRow, accept]
        · simpa [store_question, store_used_question] using h5
        · intro a ha
          rcases List.mem_cons.mp ha with rfl | ha'
          · simpa [used_iff] using hused
          · intro hmem
            have h := h6 a ha'
            simp [store_question, store_used_question] at h
            exact h.1 hmem
        · refine List.Nodup.cons ?_ h7
          intro hmem
          simp only [List.mem_map] at hmem
          obtain ⟨a, ha, heq⟩ := hmem
          have h := h6 a ha
          simp [store_question, store_used_question] at h
          exact h.2 (by simpa [accept] using heq)
        · simp only [List.map_cons, h8, List.length_cons, accept]
          rw [List.range'_succ]

/-- The candidate loop never grows the accepted list beyond the target. -/
theorem uniqLoop_le (resume_id : Int) (skill level : String) (N : Nat)
    (parsed : List ParsedQ) :
    ∀ (acc : List AcceptedQ) (q_no : Nat) (db : DB), acc.length ≤ N →
    (uniqLoop resume_id skill level N parsed acc q_no db).1.length ≤ N := by
  induction parsed with
  | nil => intro acc q_no db h; simpa [uniqLoop] using h
  | cons q rest ih =>
    intro acc q_no db h
    by_cases hN : acc.length = N
    · simp [uniqLoop, hN]
    · by_cases hused : question_used_before db resume_id q.question = true
      · have hu : uniqLoop resume_id skill level N (q :: rest) acc q_no db
            = uniqLoop resume_id skill level N rest acc q_no db := by
          simp [uniqLoop, hN, hused]
        rw [hu]; exact ih acc q_no db h
      · have hu : uniqLoop resume_id skill level N (q :: rest) acc q_no db
            = uniqLoop resume_id skill level N rest
                (acc ++ [accept skill level q_no q]) (q_no + 1)
                (store_question (store_used_question db resume_id q.question)
                  (accept skill level q_no q)) := by
          simp [uniqLoop, hN, hused]
        rw [hu]
        refine ih _ _ _ ?_
        simp only [List.length_append, List.length_singleton]
        omega

/-- When the loop exhausts the pool without reaching the target, every
candidate stem of the pool ends up recorded in the final history: it either
was rejected because already present, or was accepted and written. -/
theorem uniqLoop_exhausted (resume_id : Int) (skill level : String) (N : Nat)
    (parsed : List ParsedQ) :
    ∀ (acc : List AcceptedQ) (q_no : Nat) (db : DB),
    (uniqLoop resume_id skill level N parsed acc q_no db).1.length < N →
    ∀ c ∈ parsed,
      (resume_id, c.question)
        ∈ (uniqLoop resume_id skill level N parsed acc q_no db).2.resume_history := by
  induction parsed with
  | nil => intro acc q_no db _ c hc; cases hc
  | cons q rest ih =>
    intro acc q_no db hlen c hc
    by_cases hN : acc.length = N
    · exfalso
      rw [show uniqLoop resume_id skill level N (q :: rest) acc q_no db = (acc, db) by
        simp [uniqLoop, hN]] at hlen
      simp at hlen
      omega
    · by_cases hused : question_used_before db resume_id q.question = true
      · have hu : uniqLoop resume_id skill level N (q :: rest) acc q_no db
            = uniqLoop resume_id skill level N rest acc q_no db := by
          simp [uniqLoop, hN, hused]
        rw [hu] at hlen ⊢
        rcases List.mem_cons.mp hc with hceq | hc'
        · obtain ⟨new, _, _, h3, _⟩ := uniqLoop_run resume_id skill level N rest acc q_no db
          rw [h3, hceq]
          exact List.mem_append_left _ ((used_iff db resume_id q.question).mp hused)
        · exact ih acc q_no db hlen c hc'
      · have hu : uniqLoop resume_id skill level N (q :: rest) acc q_no db
            = uniqLoop resume_id skill level N rest
                (acc ++ [accept skill level q_no q]) (q_no + 1)
                (store_question (store_used_question db resume_id q.question)
                  (accept skill level q_no q)) := by
          simp [uniqLoop, hN, hused]
        rw [hu] at hlen ⊢
        rcases List.mem_cons.mp hc with hceq | hc'
        · obtain ⟨new, _, _, h3, _⟩ := uniqLoop_run resume_id skill level N rest
            (acc ++ [accept skill level q_no q]) (q_no + 1)
            (store_question (store_used_question db resume_id q.question)
              (accept skill level q_no q))
          rw [h3, hceq]
          refine List.mem_append_left _ ?_
          simp [store_question, store_used_question]
        · exact ih _ _ _ hlen c hc'

/-- Claim C1: the spec requires a block that fails to yield a stem, all four
options, and a valid answer letter to be discarded silently, never crashing.
The regex parser of `src/QGtestrun3.py` satisfies this on a stem-only block
(it yields the empty list), but `_parse_questions` of `src/QGtestrun4.py`
raises an uncaught `IndexError` at `lines[1]` on the same input, modelled by
`none`: the code violates the claim (code bug). -/
theorem parser_crash_on_incomplete_block :
    parse_quiz_output "Q1. What is 2+2?" = [] ∧
    parse_questions "Q1. What is 2+2?" = none := ⟨rfl, rfl⟩

/-- Claim C6: the spec requires every extracted field to be the trimmed
source text with embedded newlines preserved.  The regex parser of
`src/QGtestrun3.py` does preserve the newline inside the stem (first
conjunct), but `_parse_questions` of `src/QGtestrun4.py` raises an
`IndexError` on that very input (second conjunct) and, when the second stem
line happens to contain a closing parenthesis, silently returns a record
whose stem is only the first line and whose options are shifted by one
(third conjunct): the code violates the claim (code bug). -/
theorem embedded_newline_divergence :
    parse_quiz_output "Q1. stem part1\npart2 extra\nA) o1\nB) o2\nC) o3\nD) o4\nAnswer: C"
      = [{ question_no := 1, question := "stem part1\npart2 extra", A := "o1",
           B := "o2", C := "o3", D := "o4", answer := "C" }] ∧
    parse_questions "Q1. stem part1\npart2 extra\nA) o1\nB) o2\nC) o3\nD) o4\nAnswer: C"
      = none ∧
    parse_questions "Q1. stem part1\npart2) extra\nA) o1\nB) o2\nC) o3\nAnswer: A"
      = some [{ question := "stem part1", A := "extra", B := "o1", C := "o2",
                D := "o3", correct := "A" }] := ⟨rfl, rfl, rfl⟩

/-- Claim C7: the spec requires the answer letter of every parsed record to
be exactly one of A, B, C, D.  The regex parser of `src/QGtestrun3.py`
rejects the block whose answer line reads `Answer: E` (last conjunct), but
`_parse_questions` of `src/QGtestrun4.py` copies whatever follows the colon
and returns a record with answer `E` (first conjunct): the code violates
the claim (code bug). -/
theorem answer_letter_not_validated :
    parse_questions "Q1. stem\nA) o1\nB) o2\nC) o3\nD) o4\nAnswer: E"
      = some [{ question := "stem", A := "o1", B := "o2", C := "o3", D := "o4",
                correct := "E" }] ∧
    ("E" : String) ≠ "A" ∧ ("E" : String) ≠ "B" ∧
    ("E" : String) ≠ "C" ∧ ("E" : String) ≠ "D" ∧
    parse_quiz_output "Q1. stem\nA) o1\nB) o2\nC) o3\nD) o4\nAnswer: E" = [] := by
  refine ⟨rfl, ?_, ?_, ?_, ?_, rfl⟩ <;> decide

/-- Claim C8: the spec requires generation to be short-circuited with a
no-content result whenever the aggregated content is empty.
`QuizGenerator.generate_quiz` of `src/QGtestrun3.py` does exactly that (the
generator call log stays empty), but `generate_unique_questions` of
`src/QGtestrun4.py` performs no emptiness check: on the same empty-content
database its call log contains the prompt built over the empty content, so
the external generation call is invoked — the code violates the claim
(code bug). -/
theorem empty_content_generation_divergence :
    generate_quiz genStub db0 "Rust" "Beginner" 3
      = ("No content found for skill: Rust", []) ∧
    (generate_unique_questions genStub db0 1 "Rust" "Beginner" 3).2.2
      = [build_prompt "Rust" "Beginner" (3 * 2) (get_content_for_skill db0 "Rust")] ∧
    get_content_for_skill db0 "Rust" = "" := ⟨rfl, rfl, rfl⟩

/-- Claim C2: over one run of the uniqueness filter, every accepted
question has a stem that was not recorded for the examinee when the run
started, every accepted stem is recorded in the resulting history, no two
accepted questions share a stem, and — whenever the pool was exhausted
without reaching the target — every candidate stem of the pool ends up
recorded, so a candidate is accepted exactly when its stem was not yet
recorded at its turn. -/
theorem uniqueness_filter_no_duplicate_stems (resume_id : Int)
    (skill level : String) (N : Nat) (parsed : List ParsedQ) (db : DB) :
    (∀ q ∈ (uniqLoop resume_id skill level N parsed [] 1 db).1,
        question_used_before db resume_id q.question = false) ∧
    (∀ q ∈ (uniqLoop resume_id skill level N parsed [] 1 db).1,
        question_used_before (uniqLoop resume_id skill level N parsed [] 1 db).2
          resume_id q.question = true) ∧
    ((uniqLoop resume_id skill level N parsed [] 1 db).1.map AcceptedQ.question).Nodup ∧
    ((uniqLoop resume_id skill level N parsed [] 1 db).1.length < N →
      ∀ c ∈ parsed,
        question_used_before (uniqLoop resume_id skill level N parsed [] 1 db).2
          resume_id c.question = true) := by
  obtain ⟨new, h1, _, h3, _, _, h6, h7, _⟩ :=
    uniqLoop_run resume_id skill level N parsed [] 1 db
  refine ⟨?_, ?_, ?_, ?_⟩
  · intro q hq
    rw [h1] at hq
    simp only [List.nil_append] at hq
    cases hb : question_used_before db resume_id q.question
    · rfl
    · exact absurd ((used_iff _ _ _).mp hb) (h6 q hq)
  · intro q hq
    rw [h1] at hq
    simp only [List.nil_append] at hq
    rw [used_iff, h3]
    exact List.mem_append_right _ (List.mem_map_of_mem _ hq)
  · rw [h1]
    simpa using h7
  · intro hlen c hc
    rw [used_iff]
    exact uniqLoop_exhausted resume_id skill level N parsed [] 1 db hlen c hc

/-- Concrete instantiation of the uniqueness-filter claim: with an empty
history, target 2 and a pool whose two candidates carry the same stem, only
the first is accepted and the stem is recorded in the resulting history. -/
theorem uniqueness_filter_no_duplicate_stems_witness :
    question_used_before (uniqLoop 1 "S" "L" 2 [pq "S1", pq "S1"] [] 1 db0).2 1 "S1" = true ∧
    (uniqLoop 1 "S" "L" 2 [pq "S1", pq "S1"] [] 1 db0).1.length = 1 := by
  refine ⟨?_, rfl⟩
  have h := uniqueness_filter_no_duplicate_stems 1 "S" "L" 2 [pq "S1", pq "S1"] db0
  exact h.2.2.2 (by decide) (pq "S1") (by simp)

/-- Claim C5: the display numbers of the accepted questions of any run of
the uniqueness filter are exactly 1..K in acceptance order, K the number
accepted — contiguous, gapless, starting at 1, and independent of any
number in the generated text (the candidate records of this variant carry
no parsed number at all). -/
theorem display_numbers_contiguous (resume_id : Int) (skill level : String)
    (N : Nat) (parsed : List ParsedQ) (db : DB) :
    (uniqLoop resume_id skill level N parsed [] 1 db).1.map AcceptedQ.question_no
      = List.range' 1 (uniqLoop resume_id skill level N parsed [] 1 db).1.length := by
  obtain ⟨new, h1, _, _, _, _, _, _, h8⟩ :=
    uniqLoop_run resume_id skill level N parsed [] 1 db
  rw [h1]
  simpa using h8

/-- The prompt log of `generate_unique_questions` always consists of exactly
one call, whose prompt is built over twice the requested count. -/
theorem gen_uq_log (gen : String → String) (db : DB) (resume_id : Int)
    (skill level : String) (N : Nat) :
    (generate_unique_questions gen db resume_id skill level N).2.2
      = [build_prompt skill level (N * 2) (get_content_for_skill db skill)] := by
  unfold generate_unique_questions
  rcases hp : parse_questions (gen (build_prompt skill level (N * 2)
      (get_content_for_skill db skill))) with _ | parsed
  · simp [hp]
  · simp only [hp]
    split <;> rfl

/-- Claim C4: the generation pipeline is asked for exactly twice the target
count (the single logged prompt is built over `N * 2`); the accepted list
never exceeds the target; and once the target is reached the loop returns
immediately, independent of the remaining candidates, which are not
evaluated. -/
theorem oversample_and_short_circuit (gen : String → String) (db : DB)
    (resume_id : Int) (skill level : String) (N : Nat) :
    (generate_unique_questions gen db resume_id skill level N).2.2
      = [build_prompt skill level (N * 2) (get_content_for_skill db skill)] ∧
    (∀ parsed : List ParsedQ,
        (uniqLoop resume_id skill level N parsed [] 1 db).1.length ≤ N) ∧
    (∀ (parsed : List ParsedQ) (acc : List AcceptedQ) (q_no : Nat) (db2 : DB),
        acc.length = N →
        uniqLoop resume_id skill level N parsed acc q_no db2 = (acc, db2)) := by
  refine ⟨gen_uq_log gen db resume_id skill level N, ?_, ?_⟩
  · intro parsed
    exact uniqLoop_le resume_id skill level N parsed [] 1 db (Nat.zero_le N)
  · intro parsed acc q_no db2 hacc
    cases parsed with
    | nil => simp [uniqLoop]
    | cons q rest => simp [uniqLoop, hacc]

/-- Concrete instantiation of the oversampling claim: the one prompt logged
for target 1 is built over 2, and a loop entered with a full accumulator
returns it unchanged without looking at the pending candidate. -/
theorem oversample_and_short_circuit_witness :
    (generate_unique_questions genStub db0 1 "S" "L" 1).2.2
      = [build_prompt "S" "L" (1 * 2) (get_content_for_skill db0 "S")] ∧
    uniqLoop 1 "S" "L" 1 [pq "X"] [accept "S" "L" 1 (pq "S1")] 2 db0
      = ([accept "S" "L" 1 (pq "S1")], db0) := by
  have h := oversample_and_short_circuit genStub db0 1 "S" "L" 1
  exact ⟨h.1, h.2.2 [pq "X"] [accept "S" "L" 1 (pq "S1")] 2 db0 rfl⟩

/-- Claim C3: when the pool is exhausted with fewer acceptances than the
target, `generate_unique_questions` returns the insufficient sentinel, the
questions and history pairs persisted for the accepted prefix remain in the
database (no rollback), the session ends before any scoring (in the source,
iterating the sentinel string raises `TypeError` at the first subscript),
and no attempt row is ever written. -/
theorem insufficient_outcome_preserves_persisted (gen : String → String)
    (answers : List String) (db : DB) (resume_id : Int) (skill level : String)
    (N : Nat) (parsed : List ParsedQ)
    (hparse : parse_questions (gen (build_prompt skill level (N * 2)
        (get_content_for_skill db skill))) = some parsed)
    (hshort : (uniqLoop resume_id skill level N parsed [] 1 db).1.length < N) :
    (generate_unique_questions gen db resume_id skill level N).1
      = GenResult.insufficient "Not enough unique questions found. Try again." ∧
    (generate_unique_questions gen db resume_id skill level N).2.1.quiz_questions
      = db.quiz_questions
        ++ (uniqLoop resume_id skill level N parsed [] 1 db).1.map acceptedRow ∧
    (generate_unique_questions gen db resume_id skill level N).2.1.resume_history
      = db.resume_history
        ++ (uniqLoop resume_id skill level N parsed [] 1 db).1.map
             (fun a => (resume_id, a.question)) ∧
    (main4 gen answers db resume_id skill level N).1 = RunOutcome.typeError ∧
    (main4 gen answers db resume_id skill level N).2.quiz_attempts
      = db.quiz_attempts := by
  have hg : generate_unique_questions gen db resume_id skill level N
      = (GenResult.insufficient "Not enough unique questions found. Try again.",
         (uniqLoop resume_id skill level N parsed [] 1 db).2,
         [build_prompt skill level (N * 2) (get_content_for_skill db skill)]) := by
    unfold generate_unique_questions
    simp [hparse, hshort]
  obtain ⟨new, h1, _, h3, h4, h5, _⟩ :=
    uniqLoop_run resume_id skill level N parsed [] 1 db
  have hmsg : ("Not enough unique questions found. Try again." : String) ≠ "" := by decide
  refine ⟨by rw [hg], ?_, ?_, ?_, ?_⟩
  · rw [hg]
    show (uniqLoop resume_id skill level N parsed [] 1 db).2.quiz_questions = _
    rw [h4, h1]
    simp
  · rw [hg]
    show (uniqLoop resume_id skill level N parsed [] 1 db).2.resume_history = _
    rw [h3, h1]
    simp
  · simp [main4, hg, hmsg]
  · simp only [main4, hg]
    rw [if_neg hmsg]
    exact h5

/-- Concrete instantiation of the insufficiency claim: the generator returns
one question but two are requested, so the run ends with the sentinel and
the attempt table stays empty. -/
theorem insufficient_outcome_preserves_persisted_witness :
    (generate_unique_questions gen0 db0 1 "S" "L" 2).1
      = GenResult.insufficient "Not enough unique questions found. Try again." ∧
    (main4 gen0 [] db0 1 "S" "L" 2).2.quiz_attempts = [] := by
  have h := insufficient_outcome_preserves_persisted gen0 [] db0 1 "S" "L" 2
    [pq "S1"] rfl (by decide)
  exact ⟨h.1, h.2.2.2.2⟩

/-- The answer-collection loop only adds the count of matching replies to
its accumulator. -/
theorem scoring_loop_acc (qs : List AcceptedQ) :
    ∀ (answers : List String) (c : Nat),
    scoring_loop qs answers c
      = c + (qs.zip answers).countP (fun p => pyUpper (pyStrip p.2) == p.1.correct) := by
  induction qs with
  | nil => intro answers c; cases answers <;> simp [scoring_loop]
  | cons q rest ih =>
    intro answers c
    cases answers with
    | nil => simp [scoring_loop]
    | cons a more =>
      simp only [scoring_loop, List.zip_cons_cons, List.countP_cons]
      rw [ih]
      by_cases h : pyUpper (pyStrip a) = q.correct
      · simp only [h, if_true, beq_self_eq_true, if_pos]
        omega
      · rw [if_neg h, if_neg (by simpa using h)]
        omega

/-- Claim C9: the tally of the scoring session equals the number of
questions whose reply, stripped and uppercased exactly as `main` of
`src/QGtestrun4.py` does, equals the stored answer letter; in particular a
stored letter B with examinee input b is counted correct. -/
theorem scoring_case_insensitive (qs : List AcceptedQ) (answers : List String) :
    scoring_loop qs answers 0
      = (qs.zip answers).countP (fun p => pyUpper (pyStrip p.2) == p.1.correct) ∧
    scoring_loop [{ question_no := 1, skill := "S", mode := "L", question := "q",
                    A := "a", B := "b", C := "c", D := "d", correct := "B" }] ["b"] 0
      = 1 :=
  ⟨by simpa using scoring_loop_acc qs answers 0, by decide⟩

/-- The persistence loop of `main` in `src/QGtestrun3.py` appends one row
per parsed question, keeping its parsed number. -/
theorem save_loop_numbers (skill level : String) (parsed : List Q3) :
    ∀ db : DB,
    (save_loop skill level parsed db).quiz_questions.map QuestionRow.question_no
      = db.quiz_questions.map QuestionRow.question_no ++ parsed.map Q3.question_no := by
  induction parsed with
  | nil => intro db; simp [save_loop]
  | cons q rest ih =>
    intro db
    simp only [save_loop]
    rw [ih]
    simp [save_question]

/-- Claim C10: in the variant without uniqueness filtering the persisted
question numbers are exactly the parsed `Q<digits>` numbers in order, with
no renumbering; concretely, generated text numbered Q7, Q7, Q3 is persisted
with numbers 7, 7, 3 — repeated, non-sequential, and not starting at 1. -/
theorem verbatim_question_numbers (skill level : String) (parsed : List Q3) (db : DB) :
    ((save_loop skill level parsed db).quiz_questions.map QuestionRow.question_no
      = db.quiz_questions.map QuestionRow.question_no ++ parsed.map Q3.question_no) ∧
    (parse_quiz_output "Q7. s1\nA) a\nB) b\nC) c\nD) d\nAnswer: A\nQ7. s2\nA) a\nB) b\nC) c\nD) d\nAnswer: B\nQ3. s3\nA) a\nB) b\nC) c\nD) d\nAnswer: C").map Q3.question_no
      = [7, 7, 3] ∧
    (main3 (fun _ => "Q7. s1\nA) a\nB) b\nC) c\nD) d\nAnswer: A\nQ7. s2\nA) a\nB) b\nC) c\nD) d\nAnswer: B\nQ3. s3\nA) a\nB) b\nC) c\nD) d\nAnswer: C")
        ⟨[("S", "ctx")], [], [], []⟩ "S" "L" 3).quiz_questions.map QuestionRow.question_no
      = [7, 7, 3] := by
  refine ⟨save_loop_numbers skill level parsed db, ?_, ?_⟩ <;> rfl
